import Mathlib

/-!
Verification of the moleculer-web API gateway dispatch pipeline
(`src/index.js`): route-table construction, URL-to-action resolution,
alias rewriting, whitelist checks, the body-parser chain, parameter
merging, response encoding and error mapping, shallowly embedded as
executable Lean definitions.

JavaScript machine-level conventions used throughout the embedding:
strings are Lean `String`s (the source only manipulates ASCII paths and
action names, so UTF-16 index arithmetic coincides with character
indexing); JS objects used as string maps are association lists whose
lookup takes the first matching key; `undefined`/absent is `Option.none`;
JS truthiness of a string (`"" ` is falsy) is modelled explicitly at each
`||` / `if` that relies on it.
-/

namespace MoleculerWeb

/-! ## JavaScript values

A value returned by an action invocation, or carried as a request body.
The constructors are chosen so that the dynamic type tests the source
performs (`== null`, `Buffer.isBuffer`, lodash `_.isObject`, `isStream`,
`Array.isArray`, `_.isString`) are all expressible, including their
overlaps (a buffer, a stream and an array are all lodash objects).
`obj` carries the scalar string fields (first component list), an
optional numeric `data` array (as used by the serialized-buffer envelope
`\x7btype: "Buffer", data: [...]\x7d`), and a `serializable` flag that is
`false` exactly when `JSON.stringify` would throw on it (e.g. a circular
structure). -/
inductive JsValue where
  | jsNull
  | undef
  | boolVal (b : Bool)
  | numVal (n : Int)
  | strVal (s : String)
  | buffer (bytes : List Nat)
  | stream (id : Nat)
  | obj (fields : List (String × String)) (dataArr : Option (List Nat)) (serializable : Bool)
  | arr (elems : List String) (serializable : Bool)
deriving DecidableEq

namespace JsValue

/-- JS loose equality test `data == null`: true for `null` and `undefined`. -/
def jsEqNull : JsValue → Bool
  | .jsNull => true
  | .undef => true
  | _ => false

/-- `Buffer.isBuffer(data)`. -/
def isBuffer : JsValue → Bool
  | .buffer _ => true
  | _ => false

/-- lodash `_.isObject(data)`: true for plain objects, arrays, buffers and
streams (all of which are JS objects); false for primitives and null. -/
def isObjectL : JsValue → Bool
  | .buffer _ => true
  | .stream _ => true
  | .obj _ _ _ => true
  | .arr _ _ => true
  | _ => false

/-- `data.type == "Buffer"`: a plain object whose `type` field is the
string `"Buffer"`.  Buffers, streams and arrays have no own `type`
string field. -/
def typeFieldIsBuffer : JsValue → Bool
  | .obj fields _ _ => (fields.lookup "type") = some "Buffer"
  | _ => false

/-- `isStream(data)` from the `isStream` package: an object with stream
methods; modelled as exactly the `stream` constructor. -/
def isStreamV : JsValue → Bool
  | .stream _ => true
  | _ => false

/-- `_.isString(data)`. -/
def isStringV : JsValue → Bool
  | .strVal _ => true
  | _ => false

/-- `Array.isArray(data)`. -/
def isArrayV : JsValue → Bool
  | .arr _ _ => true
  | _ => false

/-- JS `typeof data`. -/
def typeofJs : JsValue → String
  | .jsNull => "object"
  | .undef => "undefined"
  | .boolVal _ => "boolean"
  | .numVal _ => "number"
  | .strVal _ => "string"
  | .buffer _ => "object"
  | .stream _ => "object"
  | .obj _ _ _ => "object"
  | .arr _ _ => "object"

/-- The byte list of a buffer (unused default for other shapes). -/
def bufferBytes : JsValue → List Nat
  | .buffer bytes => bytes
  | _ => []

/-- The payload of a string value (unused default for other shapes). -/
def strPayload : JsValue → String
  | .strVal s => s
  | _ => ""

end JsValue

/-- JSON string quoting (escaping elided: the embedding never needs it). -/
def jsQuote (s : String) : String := "\"" ++ s ++ "\""

/-- A rendering of an object's scalar fields, standing in for
`JSON.stringify` output on plain objects. -/
def renderFields (fields : List (String × String)) : String :=
  "\x7b" ++ String.intercalate "," (fields.map fun kv => jsQuote kv.1 ++ ":" ++ jsQuote kv.2) ++ "\x7d"

/-- `JSON.stringify(data)`: `none` models a throw (e.g. a circular
structure, flagged by `serializable := false`).  `undefined` yields no
string either (in JS the call returns `undefined` rather than throwing,
but every use in the source is guarded by the `== null` branch, so the
distinction is unobservable). -/
def jsonStringify : JsValue → Option String
  | .jsNull => some "null"
  | .undef => none
  | .boolVal b => some (if b then "true" else "false")
  | .numVal n => some (toString n)
  | .strVal s => some (jsQuote s)
  | .buffer bytes =>
      some ("\x7b\"type\":\"Buffer\",\"data\":[" ++ String.intercalate "," (bytes.map toString) ++ "]\x7d")
  | .stream _ => some "\x7b\x7d"
  | .obj fields _ serializable => if serializable then some (renderFields fields) else none
  | .arr elems serializable =>
      if serializable then some ("[" ++ String.intercalate "," (elems.map jsQuote) ++ "]") else none

/-- `Buffer.from(data)` on a value already known to satisfy
`data.type == "Buffer"`: succeeds exactly when the envelope carries a
numeric `data` array, else throws (`none`). -/
def bufferFrom : JsValue → Option (List Nat)
  | .obj _ (some bytes) _ => some bytes
  | _ => none

/-- JS `a || b` on an optional string `a` and a string default `b`
(`undefined` and `""` are falsy). -/
def jsStrOr (a : Option String) (b : String) : String :=
  match a with
  | some s => if s = "" then b else s
  | none => b

/-- JS `a || b` on two optional strings (`undefined` and `""` are falsy). -/
def jsOptOr (a b : Option String) : Option String :=
  match a with
  | some s => if s = "" then b else some s
  | none => b

/-- JS `!x` on an optional string: true for `undefined` and `""`. -/
def jsFalsyOpt : Option String → Bool
  | none => true
  | some s => s = ""

/-- `Option` alternative without the thunk of `Option.orElse`. -/
def optOr {α : Type} (a b : Option α) : Option α :=
  match a with
  | some x => some x
  | none => b

/-- JS `s.startsWith(p)`, over the character lists of the strings. -/
def strStartsWith (s p : String) : Bool := p.data.isPrefixOf s.data

/-- JS `s.endsWith(p)`, over the character lists of the strings. -/
def strEndsWith (s p : String) : Bool := p.data.isSuffixOf s.data

/-! ## Whitelist masks

`checkWhitelist` evaluates a string mask with
`nanomatch.isMatch(action, mask, \x7b unixify: false \x7d)`.  The glob
matcher below embeds that collaborator.  Modelled from the spec:
a string mask is a filesystem-glob-style pattern evaluated against the
action name, `*` wildcarding, case-sensitive, without path-separator
unification (`.` stays a literal separator; `*` and `?` do not cross a
literal `/`). -/
def globMatchAux : Nat → List Char → List Char → Bool
  | 0, _, _ => false
  | fuel + 1, p, s =>
    match p, s with
    | [], [] => true
    | [], _ :: _ => false
    | '*' :: ps, [] => globMatchAux fuel ps []
    | '*' :: ps, c :: cs =>
        globMatchAux fuel ps (c :: cs) || (decide (c ≠ '/') && globMatchAux fuel ('*' :: ps) cs)
    | '?' :: ps, c :: cs => decide (c ≠ '/') && globMatchAux fuel ps cs
    | '?' :: _, [] => false
    | a :: ps, c :: cs => decide (a = c) && globMatchAux fuel ps cs
    | _ :: _, [] => false

/-- Entry point of the glob matcher.  Each `globMatchAux` step shrinks
`p.length + s.length`, so this fuel never runs out (the fuel only makes
the recursion structural). -/
def globMatch (p s : List Char) : Bool := globMatchAux (p.length + s.length + 1) p s

/-- A whitelist entry: the source accepts glob strings and regular
expressions and ignores every other shape.  A regular expression is
embedded by its native match test `mask.test(action)`. -/
inductive Mask where
  | str (pattern : String)
  | regex (test : String → Bool)
  | other

/-- One `route.whitelist.find(...)` callback step: a string mask matches
by glob, a regex mask by its native test, anything else never matches. -/
def maskTest (action : String) : Mask → Bool
  | .str p => globMatch p.data action.data
  | .regex t => t action
  | .other => false

/-- `checkWhitelist(route, action)` (src/index.js lines 504-511):
`route.whitelist.find(mask => ...) != null`. -/
def checkWhitelist (whitelist : List Mask) (action : String) : Bool :=
  (whitelist.find? (maskTest action)).isSome

/-! ## Alias resolution -/

/-- `resolveAlias(route, actionName, method = "GET")` (src/index.js lines
521-527): `const match = method + " " + actionName;
const res = route.aliases[match] || route.aliases[actionName];
return res ? res : actionName;` — JS `||` and the conditional treat an
empty-string alias value as falsy. -/
def resolveAlias (aliasTable : List (String × String)) (actionName : String)
    (method : String := "GET") : String :=
  let key := method ++ " " ++ actionName
  let res := jsOptOr (aliasTable.lookup key) (aliasTable.lookup actionName)
  match res with
  | some v => if v = "" then actionName else v
  | none => actionName

/-! ## Errors

The gateway's error classes (`ServiceNotFoundError` and `CustomError`
from the `moleculer` dependency, `InvalidRequestBodyError` and
`InvalidResponseType` from `./errors`) are not part of `src/`; their
field layout is modelled from the spec.  A JS error object, as consumed
by the error mapper: each field is optional because `_.pick` and
`JSON.stringify` drop absent/undefined fields. -/
inductive JsCode where
  | num (n : Int)
  | str (s : String)
deriving DecidableEq

structure JsError where
  name : Option String := none
  message : Option String := none
  code : Option JsCode := none
  data : Option String := none
  ctx : Option String := none
deriving DecidableEq

/-- Modelled from the spec: `ServiceNotFoundError` from the `moleculer`
dependency (not under src/); taxonomy maps NotFound (unresolvable or
non-whitelisted action) to HTTP 404, carrying the action name as data.
The message text is the literal from src/index.js. -/
def serviceNotFoundError (actionName : String) : JsError :=
  { name := some "ServiceNotFoundError",
    message := some ("Action \x27" ++ actionName ++ "\x27 is not available!"),
    code := some (.num 404),
    data := some actionName }

/-- Modelled from the spec: `new CustomError("Forbidden", 403)` from the
`moleculer` dependency; authorization denied maps to HTTP 403. -/
def forbiddenError : JsError :=
  { name := some "CustomError", message := some "Forbidden", code := some (.num 403) }

/-- Modelled from the spec: `InvalidRequestBodyError(err.body, err.message)`
from `./errors` (not under src/); a decoder failure carrying the raw
offending payload and a message, default 4xx code. -/
def invalidRequestBodyError (body msg : String) : JsError :=
  { name := some "InvalidRequestBodyError", message := some msg,
    code := some (.num 400), data := some body }

/-- Modelled from the spec: `InvalidResponseType(typeof data)` from
`./errors` (not under src/); a result value that the encoder could not
encode. -/
def invalidResponseTypeError (t : String) : JsError :=
  { name := some "InvalidResponseType", message := some t }

/-! ## Requests, parsers, routes -/

/-- The slice of the Node request object the pipeline reads: the raw
URL, the method, the headers, and the `body` field populated by the
body parsers (absent, i.e. `undefined`, until a parser sets it). -/
structure Req where
  url : String := ""
  method : String := "GET"
  headers : List (String × String) := []
  body : JsValue := JsValue.undef

/-- The failure a body-parser decoder reports through its callback:
`err.body` is the raw offending payload, `err.message` its message. -/
structure BodyParseErr where
  body : String
  message : String
deriving DecidableEq

/-- One configured body-parser decoder: reads the request (consuming its
stream), either returning the request with `body` populated or failing. -/
def Parser : Type := Req → Except BodyParseErr Req

/-- A route as built by `createRoute` (src/index.js lines 185-218).
`whitelist`/`aliases`/`parsers` are `none` when the corresponding
configuration is absent (`hasWhitelist` is `Array.isArray(whitelist)`,
`route.parsers` is only set when `opts.bodyParsers` is). -/
structure Route where
  authorization : Bool
  whitelist : Option (List Mask)
  aliases : Option (List (String × String))
  parsers : Option (List Parser)
  path : String

/-- `route.hasWhitelist = Array.isArray(route.whitelist)`. -/
def hasWhitelistR (r : Route) : Bool := r.whitelist.isSome

/-- `route.hasAliases = route.aliases && Object.keys(route.aliases).length > 0`. -/
def hasAliasesR (r : Route) : Bool :=
  match r.aliases with
  | some l => !l.isEmpty
  | none => false

/-- The `route.parsers && route.parsers.length > 0` guard's list. -/
def parsersOf (r : Route) : List Parser := r.parsers.getD []

/-- The per-route configuration options (`opts`), as consumed by
`createRoute`: `bodyParsers` maps decoder names to an enabled flag
(`bps[key] !== false`). -/
structure RouteOpts where
  path : Option String := none
  authorization : Bool := false
  whitelist : Option (List Mask) := none
  aliases : Option (List (String × String)) := none
  bodyParsers : Option (List (String × Bool)) := none

/-- `createRoute(opts)` (src/index.js lines 185-218).  `mkParser` stands
for the external `bodyParser[key](opts)` factory; `settingsPath` is the
global `this.settings.path`.  The path is
`(this.settings.path || "") + (opts.path || "")`, then `route.path || "/"`. -/
def createRoute (mkParser : String → Parser) (settingsPath : Option String)
    (opts : RouteOpts) : Route :=
  let p0 := jsStrOr settingsPath "" ++ jsStrOr opts.path ""
  { authorization := opts.authorization
    whitelist := opts.whitelist
    aliases := opts.aliases
    parsers := opts.bodyParsers.map fun bps => (bps.filter fun kv => kv.2).map fun kv => mkParser kv.1
    path := if p0 = "" then "/" else p0 }

/-! ## URL handling and dispatch (`httpHandler`, src/index.js lines 238-300) -/

/-- Split a character list at every occurrence of a separator. -/
def splitOnChar (sep : Char) : List Char → List (List Char)
  | [] => [[]]
  | c :: cs =>
    if c = sep then [] :: splitOnChar sep cs
    else
      match splitOnChar sep cs with
      | [] => [[c]]
      | h :: t => (c :: h) :: t

/-- The external `querystring.parse` collaborator, modelled as splitting
on `&` and the first `=` (percent-decoding elided; no claim depends on
it). -/
def parseQueryString (s : String) : List (String × String) :=
  (splitOnChar '&' s.data).filterMap fun kv =>
    if kv.isEmpty then none
    else
      let k := kv.takeWhile (· ≠ '=')
      match kv.dropWhile (· ≠ '=') with
      | [] => some (⟨k⟩, "")
      | _ :: v => some (⟨k⟩, ⟨v⟩)

/-- `req.url.indexOf("?", 1)`: the index of the first `?` at position 1
or later (a `?` at position 0 is not found, exactly as in the source). -/
def questionIdx (rawUrl : String) : Option Nat :=
  ((rawUrl.data.drop 1).findIdx? (· = '?')).map (· + 1)

/-- Lines 244-252: split the raw URL into path part and parsed query. -/
def splitQuery (rawUrl : String) : String × List (String × String) :=
  match questionIdx rawUrl with
  | none => (rawUrl, [])
  | some i => (⟨rawUrl.data.take i⟩, parseQueryString ⟨rawUrl.data.drop (i + 1)⟩)

/-- Lines 254-256: trim a single trailing slash. -/
def trimTrailingSlash (url : String) : String :=
  if strEndsWith url "/" then url.dropRight 1 else url

/-- The URL actually matched against route paths: query split off, one
trailing slash trimmed. -/
def normUrl (rawUrl : String) : String := trimTrailingSlash (splitQuery rawUrl).1

/-- `actionName.replace(/~/, "$")`: the regex is not global, so exactly
the first `~` is replaced. -/
def replaceFirstTilde : List Char → List Char
  | [] => []
  | c :: cs => if c = '~' then '$' :: cs else c :: replaceFirstTilde cs

/-- `actionName.replace(/\//g, ".")`: every `/` becomes `.`. -/
def slashToDot (l : List Char) : List Char :=
  l.map fun c => if c = '/' then '.' else c

/-- Lines 271-272: strip one optional leading slash off the remainder. -/
def stripLeadingSlash (rest : String) : String :=
  if strStartsWith rest "/" then rest.drop 1 else rest

/-- Lines 270-274: the candidate action name from the path remainder
after the matched prefix: strip one leading `/`, then the two
substitutions in source order. -/
def toActionName (rest : String) : String :=
  ⟨slashToDot (replaceFirstTilde (stripLeadingSlash rest).data)⟩

/-- The `for` loop of lines 260-278: first route (in declared order)
whose path is a literal prefix of the URL. -/
def findRoute (routes : List Route) (url : String) : Option Route :=
  match routes with
  | [] => none
  | r :: rs => if strStartsWith url r.path then some r else findRoute rs url

/-- What `httpHandler` does with a request: hand it to `callAction` for
the selected route, delegate to the static-asset server, or 404. -/
inductive DispatchResult where
  | action (route : Route) (actionName : String) (query : List (String × String))
  | assets
  | notFound404

/-- `httpHandler(req, res)` (src/index.js lines 238-300), up to the
point where it either calls `callAction`, delegates to the static
server (`hasServe`), or sends 404. -/
def httpHandler (routes : List Route) (hasServe : Bool) (rawUrl : String) : DispatchResult :=
  match findRoute routes (normUrl rawUrl) with
  | some r =>
      .action r (toActionName ((normUrl rawUrl).drop r.path.length)) (splitQuery rawUrl).2
  | none => if hasServe then .assets else .notFound404

/-! ## The `callAction` pipeline (src/index.js lines 312-495) -/

/-- Key-value parameter bags (parsed query strings, merged params). -/
abbrev Params := List (String × String)

/-- The own enumerable string-keyed properties `Object.assign` copies
from a body value: an object's fields, an array's or buffer's indexed
elements, nothing for primitives or streams. -/
def jsFields : JsValue → Params
  | .obj fields _ _ => fields
  | .arr elems _ => elems.enum.map fun iv => (toString iv.1, iv.2)
  | .buffer bytes => bytes.enum.map fun iv => (toString iv.1, toString iv.2)
  | _ => []

/-- `Object.assign(base, extra)`: keys of `base` keep their position with
the value overridden by `extra` where present; keys only in `extra` are
appended. -/
def objAssign (base extra : Params) : Params :=
  (base.map fun kv => (kv.1, (extra.lookup kv.1).getD kv.2)) ++
    extra.filter fun kv => (base.lookup kv.1).isNone

/-- Lines 357-362: `params = Object.assign(\x7b\x7d, query);
if (_.isObject(req.body)) params = Object.assign(params, req.body);`. -/
def mergeParams (query : Params) (body : JsValue) : Params :=
  if body.isObjectL then objAssign query (jsFields body) else query

/-- The `Promise.mapSeries` of lines 343-353: run each decoder in order,
stopping at the first failure, which is wrapped as
`InvalidRequestBodyError(err.body, err.message)`. -/
def runParsers : List Parser → Req → Except JsError Req
  | [], req => .ok req
  | p :: ps, req =>
    match p req with
    | .error e => .error (invalidRequestBodyError e.body e.message)
    | .ok req1 => runParsers ps req1

/-- Lines 340-355: the body-parse stage.  Runs the chain only when the
method is POST, PUT or PATCH and the route has a non-empty parser list;
otherwise a no-op. -/
def parseStage (route : Route) (req : Req) : Except JsError Req :=
  if (req.method = "POST" || req.method = "PUT" || req.method = "PATCH")
      && !(parsersOf route).isEmpty then
    runParsers (parsersOf route) req
  else
    .ok req

/-- The alias-resolution stage of lines 319-327 (only consulted when the
route has a non-empty alias table). -/
def aliasStage (route : Route) (actionName method : String) : String :=
  if hasAliasesR route then resolveAlias (route.aliases.getD []) actionName method
  else actionName

/-- The `ActionReference` read from the broker: its declared response
content-type and optional parameter schema (opaque). -/
structure ActionRef where
  responseType : Option String := none
  paramsSchema : Option String := none

/-- The external collaborators `callAction` talks to: the broker's
action registry and invoker, the optional validator, and the
authorization action `auth.resolveUser`. -/
structure GwEnv where
  getAction : String → Option ActionRef
  callEndpoint : String → Params → Except JsError JsValue
  validator : Option (Params → String → Option JsError) := none
  resolveUser : Option String → Option String := fun _ => none

/-- What `res` ends up carrying for one request: status, the headers
written, and the body. `errJson fields` stands for
`JSON.stringify(_.pick(err, ["name","message","code","data"]), null, 2)`
of the error mapper (absent fields dropped, as `_.pick` and
`JSON.stringify` drop them). -/
inductive BodyOut where
  | empty
  | bytes (l : List Nat)
  | piped
  | text (s : String)
  | errJson (fields : List (String × String))
deriving DecidableEq

structure HttpOut where
  status : Int
  headers : List (String × String)
  body : BodyOut
deriving DecidableEq

/-- The headers-and-body part the response encoder produces (status is
200 and the `Request-Id` header is added by the caller). -/
structure EncOut where
  headers : List (String × String)
  body : BodyOut
deriving DecidableEq

/-- The response encoder: the seven-way `if`/`else if` chain of lines
433-466, with the enclosing `try`/`catch` of lines 433-469 mapping an
encoding throw to `InvalidResponseType(typeof data)`. -/
def encode (data : JsValue) (responseType : Option String) : Except JsError EncOut :=
  if data.jsEqNull then
    .ok { headers := [], body := .empty }
  else if data.isBuffer then
    .ok { headers := [("Content-Type", jsStrOr responseType "application/octet-stream"),
                      ("Content-Length", toString data.bufferBytes.length)],
          body := .bytes data.bufferBytes }
  else if data.isObjectL && data.typeFieldIsBuffer then
    match bufferFrom data with
    | some bytes =>
        .ok { headers := [("Content-Type", jsStrOr responseType "application/octet-stream")],
              body := .bytes bytes }
    | none => .error (invalidResponseTypeError data.typeofJs)
  else if data.isStreamV then
    .ok { headers := [("Content-Type", jsStrOr responseType "application/octet-stream")],
          body := .piped }
  else if data.isObjectL || data.isArrayV then
    match jsonStringify data with
    | some s =>
        .ok { headers := [("Content-Type", jsStrOr responseType "application/json")],
              body := .text s }
    | none => .error (invalidResponseTypeError data.typeofJs)
  else if data.isStringV then
    if jsFalsyOpt responseType then
      .ok { headers := [("Content-Type", "application/json")],
            body := .text (jsQuote data.strPayload) }
    else
      .ok { headers := [("Content-Type", responseType.getD "")],
            body := .text data.strPayload }
  else
    match jsonStringify data with
    | some s =>
        .ok { headers := [("Content-Type", jsStrOr responseType "application/json")],
              body := .text s }
    | none => .error (invalidResponseTypeError data.typeofJs)

/-- `_.pick(err, ["name", "message", "code", "data"])` followed by
`JSON.stringify`: only the fields actually present on the error survive. -/
def pickErrFields (e : JsError) : List (String × String) :=
  (match e.name with | some v => [("name", v)] | none => []) ++
  (match e.message with | some v => [("message", v)] | none => []) ++
  (match e.code with
   | some (.num n) => [("code", toString n)]
   | some (.str s) => [("code", s)]
   | none => []) ++
  (match e.data with | some v => [("data", v)] | none => [])

/-- The error mapper, the `.catch` of lines 476-494: JSON content type,
`Request-Id` exactly when the error carries a context, status the
numeric `err.code` or 500, body the picked error fields. -/
def errorToResponse (e : JsError) : HttpOut :=
  { status := match e.code with | some (.num n) => n | _ => 500
    headers := [("Content-type", "application/json")] ++
      (match e.ctx with | some id => [("Request-Id", id)] | none => [])
    body := .errJson (pickErrFields e) }

/-- The whitelist stage of lines 329-337: when the route has a
whitelist and the resolved action name fails `checkWhitelist`, reject
with a `ServiceNotFoundError` naming the action; otherwise pass. -/
def whitelistStage (route : Route) (actionName : String) : Except JsError Unit :=
  if hasWhitelistR route && !checkWhitelist (route.whitelist.getD []) actionName then
    .error (serviceNotFoundError actionName)
  else .ok ()

/-- Lines 364-377's validation side: when a validator is configured and
the action declares a parameter schema, validate the merged params,
propagating any validation error. -/
def validateStage (env : GwEnv) (ref : ActionRef) (params : Params) : Except JsError Unit :=
  match env.validator, ref.paramsSchema with
  | some v, some schema =>
    match v params schema with
    | some e => .error e
    | none => .ok ()
  | _, _ => .ok ()

/-- The authorization stage of lines 399-417: only for routes with
`authorization`, extract the api key from query parameter `apikey`
(JS-falsy fallback) or header `apikey`, ask `auth.resolveUser`, and
reject with `CustomError("Forbidden", 403)` when no identity comes back. -/
def authStage (env : GwEnv) (route : Route) (req : Req) (query : Params) :
    Except JsError Unit :=
  if route.authorization then
    match env.resolveUser (jsOptOr (query.lookup "apikey") (req.headers.lookup "apikey")) with
    | some _ => .ok ()
    | none => .error forbiddenError
  else .ok ()

/-- The success branch of the promise chain of `callAction`
(lines 316-473), as an `Except` pipeline in source order: alias
resolution, whitelist check, body parsing, parameter merge, action
resolution, validation, authorization, invocation and response
encoding.  `ctxId` is the fresh context id (`ctx.requestID = ctx.id`);
the `Request-Id` response header is set when it is truthy. -/
def callActionCore (env : GwEnv) (route : Route) (actionName : String)
    (req : Req) (query : Params) (ctxId : String) : Except JsError HttpOut :=
  match whitelistStage route (aliasStage route actionName req.method) with
  | .error e => .error e
  | .ok _ =>
    match parseStage route req with
    | .error e => .error e
    | .ok req1 =>
      match env.getAction (aliasStage route actionName req.method) with
      | none => .error (serviceNotFoundError (aliasStage route actionName req.method))
      | some ref =>
        match validateStage env ref (mergeParams query req1.body) with
        | .error e => .error e
        | .ok _ =>
          match authStage env route req query with
          | .error e => .error e
          | .ok _ =>
            match env.callEndpoint (aliasStage route actionName req.method)
                (mergeParams query req1.body) with
            | .error e => .error e
            | .ok data =>
              match encode data ref.responseType with
              | .error e => .error e
              | .ok enc =>
                .ok { status := 200
                      headers := (if ctxId ≠ "" then [("Request-Id", ctxId)] else []) ++
                        enc.headers
                      body := enc.body }

/-- `callAction` (lines 312-495): the pipeline with its single error
boundary, every failure flowing through the error mapper. -/
def callAction (env : GwEnv) (route : Route) (actionName : String)
    (req : Req) (query : Params) (ctxId : String) : HttpOut :=
  match callActionCore env route actionName req query ctxId with
  | .ok out => out
  | .error e => errorToResponse e

/-! ## Concrete fixtures used by witnesses -/

/-- A body parser that always succeeds without touching the request. -/
def noopParser : Parser := fun r => .ok r

/-- A body parser that populates a one-field object body. -/
def okJsonParser : Parser := fun r => .ok { r with body := JsValue.obj [("a", "1")] none true }

/-- A body parser that always fails, reporting payload and message. -/
def failingParser : Parser := fun _ => .error { body := "xx", message := "bad" }

/-- A route with no whitelist, no aliases, no parsers, at the default path. -/
def rootRoute : Route :=
  { authorization := false, whitelist := none, aliases := none, parsers := none, path := "/" }

/-- A route claiming the `/admin` path segment. -/
def adminRoute : Route := { rootRoute with path := "/admin" }

/-- A route claiming the `/api` path segment. -/
def apiRoute : Route := { rootRoute with path := "/api" }

/-- A route whitelisting only `posts.*` actions. -/
def postsRoute : Route := { rootRoute with whitelist := some [Mask.str "posts.*"] }

/-- A broker environment that knows no actions. -/
def envEmpty : GwEnv :=
  { getAction := fun _ => none, callEndpoint := fun _ _ => .error {} }

/-! ## C9 — route path construction -/

/-- C9 counterexample: the claim says every constructed route path is
normalized to have no trailing slash, but `createRoute` performs no such
normalization — configuring `path: "/admin/"` yields the prefix
`"/admin/"`, which still ends in a slash (and is not the `"/"` default). -/
theorem c9_counterexample :
    (createRoute (fun _ => noopParser) none { path := some "/admin/" }).path = "/admin/" ∧
    strEndsWith "/admin/" "/" = true ∧ "/admin/" ≠ "/" := by
  exact ⟨rfl, by decide, by decide⟩

/-- C9 (amended): the constructed route path is the concatenation of the
global path setting and the route's configured path, kept verbatim with
no trailing-slash normalization, and defaults to `"/"` exactly when that
concatenation is empty. -/
theorem c9_amended (mkParser : String → Parser) (settingsPath : Option String)
    (opts : RouteOpts) :
    (jsStrOr settingsPath "" ++ jsStrOr opts.path "" = "" →
      (createRoute mkParser settingsPath opts).path = "/") ∧
    (jsStrOr settingsPath "" ++ jsStrOr opts.path "" ≠ "" →
      (createRoute mkParser settingsPath opts).path =
        jsStrOr settingsPath "" ++ jsStrOr opts.path "") := by
  constructor <;> intro h <;> simp [createRoute, h]

/-- C9 witness: the amended statement evaluated at a configured path and
at an absent one. -/
theorem c9_amended_witness :
    (createRoute (fun _ => noopParser) none { path := some "/api" }).path = "/api" ∧
    (createRoute (fun _ => noopParser) none {}).path = "/" := by
  exact ⟨(c9_amended _ none _).2 (by decide), (c9_amended _ none _).1 (by decide)⟩

/-! ## C4 — alias resolution -/

/-- C4 counterexample: the claim says the exact-key value is returned
whenever the key is present, but the source evaluates
`route.aliases[match] || route.aliases[actionName]` and `res ? res :
actionName` with JS truthiness, so a present empty-string value is
skipped: with alias table `[("GET foo", "")]`, resolving `foo` with
method `GET` ignores the present value `""` and returns `"foo"`. -/
theorem c4_counterexample :
    List.lookup "GET foo" [("GET foo", "")] = some "" ∧
    resolveAlias [("GET foo", "")] "foo" "GET" ≠ "" ∧
    resolveAlias [("GET foo", "")] "foo" "GET" = "foo" := by
  exact ⟨rfl, by decide, by decide⟩

/-- Lookup discipline of the amended C4: a table value counts only when
it is present and non-empty. -/
def lookupNonEmpty (aliasTable : List (String × String)) (k : String) : Option String :=
  match aliasTable.lookup k with
  | some v => if v = "" then none else some v
  | none => none

/-- The amended C4 resolution, built from its words: the value for the
exact key `method ++ " " ++ actionName` if present and non-empty,
otherwise the value for the exact key `actionName` if present and
non-empty, otherwise `actionName` unchanged. -/
def resolveAliasSpec (aliasTable : List (String × String)) (actionName method : String) :
    String :=
  match lookupNonEmpty aliasTable (method ++ " " ++ actionName) with
  | some v => v
  | none =>
    match lookupNonEmpty aliasTable actionName with
    | some v => v
    | none => actionName

/-- C4 (amended): `resolveAlias` returns the alias value for the exact
key `method ++ " " ++ actionName` if present and non-empty, else the
value for the exact key `actionName` if present and non-empty, else the
action name unchanged (exact-key lookups only, no substring or prefix
matching), with the method defaulting to `"GET"` when unspecified. -/
theorem c4_amended (aliasTable : List (String × String)) (actionName method : String) :
    resolveAlias aliasTable actionName method = resolveAliasSpec aliasTable actionName method ∧
    resolveAlias aliasTable actionName = resolveAlias aliasTable actionName "GET" := by
  refine ⟨?_, rfl⟩
  unfold resolveAlias resolveAliasSpec lookupNonEmpty jsOptOr
  cases h1 : aliasTable.lookup (method ++ " " ++ actionName) with
  | none =>
    cases h2 : aliasTable.lookup actionName with
    | none => simp [h1, h2]
    | some v => by_cases hv : v = "" <;> simp [h1, h2, hv]
  | some v =>
    by_cases hv : v = ""
    · cases h2 : aliasTable.lookup actionName with
      | none => simp [h1, h2, hv]
      | some w => by_cases hw : w = "" <;> simp [h1, h2, hv, hw]
    · simp [h1, hv]

/-- C4 witness: the amended equation evaluated on a method-qualified
key, a bare key, and a miss. -/
theorem c4_amended_witness :
    resolveAlias [("POST users", "users.create")] "users" "POST" = "users.create" ∧
    resolveAlias [("health", "$node.health")] "health" "GET" = "$node.health" ∧
    resolveAlias [("health", "$node.health")] "other" "GET" = "other" := by
  refine ⟨(c4_amended [("POST users", "users.create")] "users" "POST").1.trans (by decide),
    (c4_amended [("health", "$node.health")] "health" "GET").1.trans (by decide),
    (c4_amended [("health", "$node.health")] "other" "GET").1.trans (by decide)⟩

/-! ## C3 — whitelist matching -/

/-- C3: `checkWhitelist` holds iff some mask in the list matches the
action — a string mask by the glob matcher, a regex mask by its native
test, any other mask never — the boolean result is invariant under
permutation of the masks, a route declaring no whitelist always passes
the whitelist stage, and the glob matching is case-sensitive without
path-separator unification. -/
theorem c3_whitelist (wl : List Mask) (action : String) (r : Route) :
    (checkWhitelist wl action = true ↔ ∃ m ∈ wl, maskTest action m = true) ∧
    (∀ wl', wl.Perm wl' → checkWhitelist wl action = checkWhitelist wl' action) ∧
    maskTest action Mask.other = false ∧
    (∀ t, maskTest action (Mask.regex t) = t action) ∧
    (∀ p, maskTest action (Mask.str p) = globMatch p.data action.data) ∧
    (r.whitelist = none → whitelistStage r action = .ok ()) ∧
    globMatch "posts.*".data "posts.list".data = true ∧
    globMatch "Posts.*".data "posts.list".data = false ∧
    globMatch "posts/*".data "posts.list".data = false := by
  refine ⟨?_, ?_, rfl, fun t => rfl, fun p => rfl, ?_, by decide, by decide, by decide⟩
  · simp [checkWhitelist, List.find?_isSome]
  · intro wl' hp
    rw [Bool.eq_iff_iff]
    simp only [checkWhitelist, List.find?_isSome]
    exact ⟨fun ⟨m, hm, ht⟩ => ⟨m, hp.subset hm, ht⟩,
           fun ⟨m, hm, ht⟩ => ⟨m, hp.symm.subset hm, ht⟩⟩
  · intro h
    simp [whitelistStage, hasWhitelistR, h]

/-- C3 witness: the equivalence, the permutation invariance and the
no-whitelist case evaluated on concrete masks. -/
theorem c3_whitelist_witness :
    checkWhitelist [Mask.str "posts.*"] "posts.list" = true ∧
    checkWhitelist [Mask.str "posts.*", Mask.other] "comments.list" =
      checkWhitelist [Mask.other, Mask.str "posts.*"] "comments.list" ∧
    whitelistStage rootRoute "comments.list" = .ok () := by
  refine ⟨(c3_whitelist [Mask.str "posts.*"] "posts.list" rootRoute).1.mpr
      ⟨Mask.str "posts.*", by simp, by decide⟩,
    (c3_whitelist [Mask.str "posts.*", Mask.other] "comments.list" rootRoute).2.1
      [Mask.other, Mask.str "posts.*"] (List.Perm.swap _ _ _),
    (c3_whitelist [] "comments.list" rootRoute).2.2.2.2.2.1 rfl⟩

/-! ## C1 — route dispatch -/

/-- A found route is a member whose path is a prefix of the URL and no
earlier route's path is. -/
theorem findRoute_eq_some {routes : List Route} {url : String} {r : Route}
    (h : findRoute routes url = some r) :
    strStartsWith url r.path = true ∧
    ∃ pre post, routes = pre ++ r :: post ∧
      ∀ r' ∈ pre, strStartsWith url r'.path = false := by
  induction routes with
  | nil => simp [findRoute] at h
  | cons hd tl ih =>
    by_cases hs : strStartsWith url hd.path
    · rw [findRoute, if_pos hs] at h
      cases h
      exact ⟨hs, [], tl, rfl, by simp⟩
    · rw [findRoute, if_neg hs] at h
      obtain ⟨h1, pre, post, heq, hpre⟩ := ih h
      refine ⟨h1, hd :: pre, post, by rw [heq]; rfl, ?_⟩
      intro r' hr'
      rcases List.mem_cons.mp hr' with rfl | hmem
      · exact Bool.not_eq_true _ ▸ eq_false_of_ne_true (fun hc => hs hc)
      · exact hpre r' hmem

/-- If no route's path is a prefix of the URL, no route is found. -/
theorem findRoute_eq_none {routes : List Route} {url : String}
    (h : ∀ r ∈ routes, strStartsWith url r.path = false) :
    findRoute routes url = none := by
  induction routes with
  | nil => rfl
  | cons hd tl ih =>
    rw [findRoute, if_neg (by simp [h hd (by simp)])]
    exact ih fun r hr => h r (List.mem_cons_of_mem _ hr)

/-- C1: after splitting off the query string and trimming one trailing
slash, `httpHandler` selects the first configured route (in declared
order) whose path is a literal string prefix of the URL; when no
route's path is a prefix and no static-asset server is configured, the
result is the 404 response. -/
theorem c1_dispatch (routes : List Route) (hasServe : Bool) (rawUrl : String) :
    (∀ r a q, httpHandler routes hasServe rawUrl = .action r a q →
      strStartsWith (normUrl rawUrl) r.path = true ∧
      ∃ pre post, routes = pre ++ r :: post ∧
        ∀ r' ∈ pre, strStartsWith (normUrl rawUrl) r'.path = false) ∧
    ((∀ r ∈ routes, strStartsWith (normUrl rawUrl) r.path = false) →
      httpHandler routes false rawUrl = .notFound404) := by
  constructor
  · intro r a q h
    unfold httpHandler at h
    cases hf : findRoute routes (normUrl rawUrl) with
    | none =>
      rw [hf] at h
      cases hasServe <;> simp at h
    | some r0 =>
      rw [hf] at h
      cases h
      exact findRoute_eq_some hf
  · intro h
    unfold httpHandler
    rw [findRoute_eq_none h]
    rfl

/-- C1 witness: the first-match selection on a concrete route table and
the 404 fall-through on an empty one. -/
theorem c1_dispatch_witness :
    strStartsWith (normUrl "/admin/users") adminRoute.path = true ∧
    httpHandler [] false "/x" = .notFound404 :=
  ⟨((c1_dispatch [adminRoute] true "/admin/users").1 adminRoute "users" [] rfl).1,
   (c1_dispatch [] false "/x").2 (by simp)⟩

/-! ## C2 — candidate action name -/

/-- The action-name computation assembled from the claim's words rather
than the source's chained `replace` calls: strip one optional leading
slash, locate the first `~` by splitting the characters at it, replace
that single occurrence by `$`, and map every `/` to `.`. -/
def toActionNameSpec (rest : String) : String :=
  let l := (stripLeadingSlash rest).data
  let chars :=
    match l.dropWhile (fun c => c ≠ '~') with
    | [] => l.takeWhile (fun c => c ≠ '~')
    | _ :: post => l.takeWhile (fun c => c ≠ '~') ++ '$' :: post
  ⟨chars.map fun c => if c = '/' then '.' else c⟩

/-- The non-global `replace(/~/, "$")` agrees with splitting at the
first `~`. -/
theorem replaceFirstTilde_eq_split (l : List Char) :
    replaceFirstTilde l =
      match l.dropWhile (fun c => c ≠ '~') with
      | [] => l.takeWhile (fun c => c ≠ '~')
      | _ :: post => l.takeWhile (fun c => c ≠ '~') ++ '$' :: post := by
  induction l with
  | nil => rfl
  | cons c cs ih =>
    by_cases hc : c = '~'
    · subst hc
      simp [replaceFirstTilde, List.dropWhile_cons, List.takeWhile_cons]
    · rw [replaceFirstTilde, if_neg hc]
      rw [List.dropWhile_cons, List.takeWhile_cons]
      have hp : decide (c ≠ '~') = true := by simp [hc]
      rw [hp]
      simp only [if_true]
      rw [ih]
      cases h : cs.dropWhile fun c => decide (c ≠ '~') <;> simp

/-- A list without `~` is left unchanged by the substitution. -/
theorem replaceFirstTilde_id {l : List Char} (h : '~' ∉ l) : replaceFirstTilde l = l := by
  induction l with
  | nil => rfl
  | cons c cs ih =>
    simp only [List.mem_cons, not_or] at h
    rw [replaceFirstTilde, if_neg fun hc => h.1 hc.symm, ih h.2]

/-- Exactly the first occurrence of `~` is replaced; everything after
it, later `~`s included, is untouched. -/
theorem replaceFirstTilde_append {s : List Char} (t : List Char) (h : '~' ∉ s) :
    replaceFirstTilde (s ++ '~' :: t) = s ++ '$' :: t := by
  induction s with
  | nil => simp [replaceFirstTilde]
  | cons c cs ih =>
    simp only [List.mem_cons, not_or] at h
    rw [List.cons_append, replaceFirstTilde, if_neg fun hc => h.1 hc.symm, ih h.2]
    rfl

/-- The source's transformation equals the claim-worded one. -/
theorem toActionName_eq_spec (rest : String) : toActionName rest = toActionNameSpec rest := by
  simp only [toActionName, toActionNameSpec, slashToDot]
  rw [replaceFirstTilde_eq_split]

/-- C2: for every matched route, the candidate action name is the URL
remainder after the matched prefix with one optional leading slash
stripped, `~` replaced by `$` at exactly its first occurrence, and
every `/` replaced by `.`; on the remainder `users/~node/health` this
yields `users.$node.health`. -/
theorem c2_action_name :
    (∀ routes hasServe rawUrl r a q,
        httpHandler routes hasServe rawUrl = .action r a q →
        a = toActionNameSpec ((normUrl rawUrl).drop r.path.length)) ∧
    (∀ l : List Char, '~' ∉ l → replaceFirstTilde l = l) ∧
    (∀ s t : List Char, '~' ∉ s → replaceFirstTilde (s ++ '~' :: t) = s ++ '$' :: t) ∧
    (∀ l : List Char, slashToDot l = l.map fun c => if c = '/' then '.' else c) ∧
    toActionName "users/~node/health" = "users.$node.health" ∧
    toActionNameSpec "users/~node/health" = "users.$node.health" := by
  refine ⟨?_, fun l h => replaceFirstTilde_id h, fun s t h => replaceFirstTilde_append t h,
    fun l => rfl, by decide, by decide⟩
  intro routes hasServe rawUrl r a q h
  unfold httpHandler at h
  cases hf : findRoute routes (normUrl rawUrl) with
  | none =>
    rw [hf] at h
    cases hasServe <;> simp at h
  | some r0 =>
    rw [hf] at h
    cases h
    exact toActionName_eq_spec _

/-- C2 witness: the characterization applied to a concrete dispatch of
`/api/users/~node/health` against the `/api` route. -/
theorem c2_action_name_witness :
    "users.$node.health" =
      toActionNameSpec ((normUrl "/api/users/~node/health").drop apiRoute.path.length) :=
  c2_action_name.1 [apiRoute] false "/api/users/~node/health" apiRoute "users.$node.health" [] rfl

/-! ## C5 — body-parser chain -/

/-- C5: the body-parse stage is a no-op unless the method is POST, PUT
or PATCH and the route has parsers; the parsers run sequentially, and a
failure at position `i` surfaces that decoder's failure as an
`InvalidRequestBodyError` carrying its payload and message, with every
decoder after position `i` never executed (the result is independent of
them). -/
theorem c5_body_parsers :
    (∀ route req, ¬(req.method = "POST" ∨ req.method = "PUT" ∨ req.method = "PATCH") →
        parseStage route req = .ok req) ∧
    (∀ route req, parsersOf route = [] → parseStage route req = .ok req) ∧
    (∀ (ps1 : List Parser) (p : Parser) (ps2 : List Parser) (req req1 : Req)
        (e : BodyParseErr),
        runParsers ps1 req = .ok req1 → p req1 = .error e →
        runParsers (ps1 ++ p :: ps2) req =
          .error (invalidRequestBodyError e.body e.message)) := by
  refine ⟨?_, ?_, ?_⟩
  · intro route req h
    push_neg at h
    obtain ⟨h1, h2, h3⟩ := h
    simp [parseStage, h1, h2, h3]
  · intro route req h
    simp [parseStage, h]
  · intro ps1
    induction ps1 with
    | nil =>
      intro p ps2 req req1 e h1 h2
      simp only [runParsers] at h1
      cases h1
      simp only [List.nil_append, runParsers, h2]
    | cons q qs ih =>
      intro p ps2 req req1 e h1 h2
      simp only [runParsers] at h1
      cases hq : q req with
      | error e2 => rw [hq] at h1; cases h1
      | ok r2 =>
        rw [hq] at h1
        rw [List.cons_append]
        simp only [runParsers, hq]
        exact ih p ps2 r2 req1 e h1 h2

/-- C5 witness: a GET request skips a configured failing parser; a
parser-less POST is a no-op; a failing decoder at position 1 surfaces
its own failure with the decoder at position 2 never run. -/
theorem c5_body_parsers_witness :
    parseStage { rootRoute with parsers := some [failingParser] } { method := "GET" } =
      .ok { method := "GET" } ∧
    parseStage rootRoute { method := "POST" } = .ok { method := "POST" } ∧
    runParsers [okJsonParser, failingParser, noopParser] { method := "POST" } =
      .error (invalidRequestBodyError "xx" "bad") := by
  refine ⟨c5_body_parsers.1 _ _ (by decide), c5_body_parsers.2.1 _ _ rfl, ?_⟩
  exact c5_body_parsers.2.2 [okJsonParser] failingParser [noopParser] _ _ _ rfl rfl

/-! ## C8 — whitelist rejection short-circuits the pipeline -/

/-- C8: when the alias-resolved action name fails the route's
whitelist, `callAction` produces the mapped `ServiceNotFoundError`
response — HTTP status 404, with the body's `data` field naming the
action — and the result is independent of the route's configured body
parsers, which are never consulted. -/
theorem c8_whitelist_reject (env : GwEnv) (route : Route) (actionName : String)
    (req : Req) (query : Params) (ctxId : String) (wl : List Mask)
    (hwl : route.whitelist = some wl)
    (hfail : checkWhitelist wl (aliasStage route actionName req.method) = false) :
    callAction env route actionName req query ctxId =
      errorToResponse (serviceNotFoundError (aliasStage route actionName req.method)) ∧
    (callAction env route actionName req query ctxId).status = 404 ∧
    ("data", aliasStage route actionName req.method) ∈
      pickErrFields (serviceNotFoundError (aliasStage route actionName req.method)) ∧
    ∀ ps, callAction env { route with parsers := ps } actionName req query ctxId =
        callAction env route actionName req query ctxId := by
  have hmain : ∀ ps, callAction env { route with parsers := ps } actionName req query ctxId =
      errorToResponse (serviceNotFoundError (aliasStage route actionName req.method)) := by
    intro ps
    have hstage : whitelistStage { route with parsers := ps }
        (aliasStage route actionName req.method) =
        .error (serviceNotFoundError (aliasStage route actionName req.method)) := by
      simp [whitelistStage, hasWhitelistR, hwl, hfail]
    have hname : aliasStage { route with parsers := ps } actionName req.method =
        aliasStage route actionName req.method := rfl
    simp only [callAction, callActionCore, hname, hstage]
  have hroute : callAction env route actionName req query ctxId =
      errorToResponse (serviceNotFoundError (aliasStage route actionName req.method)) := by
    have hstage : whitelistStage route (aliasStage route actionName req.method) =
        .error (serviceNotFoundError (aliasStage route actionName req.method)) := by
      simp [whitelistStage, hasWhitelistR, hwl, hfail]
    simp only [callAction, callActionCore, hstage]
  refine ⟨hroute, by rw [hroute]; rfl, by simp [pickErrFields, serviceNotFoundError],
    fun ps => (hmain ps).trans hroute.symm⟩

/-- C8 witness: the whitelisted `posts.*` route rejecting
`comments.list` with a 404 whose body names the action. -/
theorem c8_whitelist_reject_witness :
    callAction envEmpty postsRoute "comments.list" { method := "GET" } [] "" =
      errorToResponse (serviceNotFoundError "comments.list") ∧
    (callAction envEmpty postsRoute "comments.list" { method := "GET" } [] "").status = 404 := by
  have h := c8_whitelist_reject envEmpty postsRoute "comments.list" { method := "GET" } [] ""
    [Mask.str "posts.*"] rfl (by decide)
  exact ⟨h.1, h.2.1⟩

/-! ## C10 — parameter merge -/

/-- `List.lookup` distributes over append, trying the left list first. -/
theorem lookup_append {α β : Type} [BEq α] (k : α) (l1 l2 : List (α × β)) :
    List.lookup k (l1 ++ l2) = optOr (List.lookup k l1) (List.lookup k l2) := by
  induction l1 with
  | nil => rfl
  | cons kv rest ih =>
    rw [List.cons_append, List.lookup_cons, List.lookup_cons]
    cases k == kv.1 <;> simp [optOr, ih]

/-- `List.lookup` through a key-preserving value map. -/
theorem lookup_map_values (k : String) (g : String → String → String)
    (base : List (String × String)) :
    List.lookup k (base.map fun kv => (kv.1, g kv.1 kv.2)) =
      (List.lookup k base).map (g k) := by
  induction base with
  | nil => rfl
  | cons kv rest ih =>
    rw [List.map_cons, List.lookup_cons, List.lookup_cons]
    cases hk : k == kv.1 with
    | false => simpa using ih
    | true =>
      have : k = kv.1 := by simpa using hk
      subst this
      simp

/-- Filtering with a predicate that keeps every entry of key `k` does
not change the lookup of `k`. -/
theorem lookup_filter_true (k : String) (l : List (String × String))
    (pred : String × String → Bool) (h : ∀ v, pred (k, v) = true) :
    List.lookup k (l.filter pred) = List.lookup k l := by
  induction l with
  | nil => rfl
  | cons kv rest ih =>
    obtain ⟨k1, v1⟩ := kv
    by_cases hk : k = k1
    · subst hk
      rw [List.filter_cons, if_pos (h v1), List.lookup_cons, List.lookup_cons]
      simp
    · have hbeq : (k == k1) = false := by simpa using hk
      rw [List.filter_cons]
      cases hp : pred (k1, v1) with
      | false =>
        rw [if_neg (by simp), ih, List.lookup_cons, hbeq]
      | true =>
        rw [if_pos rfl, List.lookup_cons, List.lookup_cons, hbeq]
        exact ih

/-- `Object.assign` lookup semantics: the overlay wins on collisions,
the base answers otherwise. -/
theorem objAssign_lookup (base extra : Params) (k : String) :
    List.lookup k (objAssign base extra) =
      optOr (List.lookup k extra) (List.lookup k base) := by
  unfold objAssign
  rw [lookup_append, lookup_map_values k (fun a v => (List.lookup a extra).getD v) base]
  cases hb : List.lookup k base with
  | some v =>
    cases he : List.lookup k extra <;> simp [optOr, he]
  | none =>
    rw [lookup_filter_true k extra _ fun v => by simp [hb]]
    cases he : List.lookup k extra <;> simp [optOr]

/-- C10: when the parsed body is not a JS object (absent, null, a
string, a number, a boolean), the merge ignores it and the params are
the query params alone; when the body is an object, its own fields are
overlaid onto the query params with the body winning on key collision. -/
theorem c10_param_merge (query : Params) (body : JsValue) :
    (body.isObjectL = false → mergeParams query body = query) ∧
    (∀ s, JsValue.isObjectL (JsValue.strVal s) = false) ∧
    (∀ n : Int, JsValue.isObjectL (JsValue.numVal n) = false) ∧
    JsValue.isObjectL JsValue.undef = false ∧
    JsValue.isObjectL JsValue.jsNull = false ∧
    (body.isObjectL = true → ∀ k, List.lookup k (mergeParams query body) =
        optOr (List.lookup k (jsFields body)) (List.lookup k query)) := by
  refine ⟨fun h => by simp [mergeParams, h], fun s => rfl, fun n => rfl, rfl, rfl, ?_⟩
  intro h k
  rw [mergeParams, if_pos h]
  exact objAssign_lookup query (jsFields body) k

/-- C10 witness: a string body is ignored outright; an object body's
field overrides the query param of the same key. -/
theorem c10_param_merge_witness :
    mergeParams [("a", "1")] (JsValue.strVal "zzz") = [("a", "1")] ∧
    List.lookup "b" (mergeParams [("a", "1"), ("b", "2")]
      (JsValue.obj [("b", "9")] none true)) = some "9" := by
  refine ⟨(c10_param_merge [("a", "1")] (JsValue.strVal "zzz")).1 rfl, ?_⟩
  have h := (c10_param_merge [("a", "1"), ("b", "2")]
    (JsValue.obj [("b", "9")] none true)).2.2.2.2.2 rfl "b"
  exact h.trans (by decide)

/-! ## C6 — response-encoder branch selection -/

/-- The raw branch tests of the encoder's `if`/`else if` chain, in
source order, before the implicit negation of the earlier tests;
branch 7 is the catch-all `else`.  These raw tests overlap (a buffer
satisfies both the branch-2 and the branch-5 test). -/
def rawCond (b : Nat) (data : JsValue) : Bool :=
  match b with
  | 1 => data.jsEqNull
  | 2 => data.isBuffer
  | 3 => data.isObjectL && data.typeFieldIsBuffer
  | 4 => data.isStreamV
  | 5 => data.isObjectL || data.isArrayV
  | 6 => data.isStringV
  | 7 => true
  | _ => false

/-- The branch the chain actually selects: the first raw test that
holds, mirroring the `if`/`else if` structure of lines 434-462. -/
def branchOf (data : JsValue) : Nat :=
  if data.jsEqNull then 1
  else if data.isBuffer then 2
  else if data.isObjectL && data.typeFieldIsBuffer then 3
  else if data.isStreamV then 4
  else if data.isObjectL || data.isArrayV then 5
  else if data.isStringV then 6
  else 7

/-- C6: the encoder selects exactly one of the seven branches — the
selected branch's raw test holds, every earlier raw test fails, and a
branch satisfying its own test with all earlier tests failing is
necessarily the selected one — the selection depends only on the value
shape (and, within a branch, the declared response type), and a failure
during encoding itself surfaces as the `InvalidResponseType` error. -/
theorem c6_encoder (data : JsValue) (responseType : Option String) :
    (1 ≤ branchOf data ∧ branchOf data ≤ 7) ∧
    rawCond (branchOf data) data = true ∧
    (∀ b, 1 ≤ b → b < branchOf data → rawCond b data = false) ∧
    (∀ b, 1 ≤ b → b ≤ 7 →
      ((rawCond b data = true ∧ ∀ j, 1 ≤ j → j < b → rawCond j data = false) ↔
        b = branchOf data)) ∧
    (∀ e, encode data responseType = .error e →
      e = invalidResponseTypeError data.typeofJs) := by
  have hb : 1 ≤ branchOf data ∧ branchOf data ≤ 7 := by
    unfold branchOf
    split_ifs <;> omega
  have hsel : rawCond (branchOf data) data = true := by
    unfold branchOf
    split_ifs with h1 h2 h3 h4 h5 h6 <;> simp_all [rawCond]
  have hlow : ∀ b, 1 ≤ b → b < branchOf data → rawCond b data = false := by
    intro b hb1 hb2
    unfold branchOf at hb2
    split_ifs at hb2 with h1 h2 h3 h4 h5 h6 <;> interval_cases b <;> simp_all [rawCond]
  refine ⟨hb, hsel, hlow, ?_, ?_⟩
  · intro b h1b h7b
    constructor
    · rintro ⟨hbt, hmin⟩
      rcases lt_trichotomy b (branchOf data) with hlt | heq | hgt
      · rw [hlow b h1b hlt] at hbt
        cases hbt
      · exact heq
      · rw [hmin (branchOf data) hb.1 hgt] at hsel
        cases hsel
    · rintro rfl
      exact ⟨hsel, fun j hj1 hj2 => hlow j hj1 hj2⟩
  · intro e he
    unfold encode at he
    split_ifs at he
    all_goals
      first
      | exact Except.noConfusion he
      | (cases hbf : bufferFrom data <;> simp [hbf] at he
         exact he.symm)
      | (cases hj : jsonStringify data <;> simp [hj] at he
         exact he.symm)

/-- C6 witness: the selected branch and priority facts evaluated on a
buffer (whose raw tests for branches 2 and 5 both hold), and a
serialization failure surfacing as `InvalidResponseType`. -/
theorem c6_encoder_witness :
    rawCond (branchOf (JsValue.buffer [1, 2])) (JsValue.buffer [1, 2]) = true ∧
    (rawCond 5 (JsValue.buffer [1, 2]) = true ∧ branchOf (JsValue.buffer [1, 2]) = 2) ∧
    invalidResponseTypeError "object" =
      invalidResponseTypeError (JsValue.obj [] none false).typeofJs :=
  ⟨(c6_encoder (JsValue.buffer [1, 2]) none).2.1, ⟨by decide, by decide⟩,
    (c6_encoder (JsValue.obj [] none false) none).2.2.2.2
      (invalidResponseTypeError "object") rfl⟩

/-! ## C7 — error mapper -/

/-- C7 counterexample: the claim says every mapped error body contains
exactly the four fields `name`, `message`, `code`, `data`, but `_.pick`
keeps only the fields present on the error and `JSON.stringify` drops
the rest: the pipeline's own `CustomError("Forbidden", 403)` carries no
`data`, so its mapped body has no `data` field. -/
theorem c7_counterexample :
    "data" ∉ (pickErrFields forbiddenError).map Prod.fst ∧
    (errorToResponse forbiddenError).body = .errJson (pickErrFields forbiddenError) ∧
    (errorToResponse forbiddenError).status = 403 := by
  exact ⟨by decide, rfl, rfl⟩

/-- C7 (amended): every error caught at the pipeline's single error
boundary is mapped to a JSON response whose body contains exactly those
of the fields `name`, `message`, `code`, `data` that the error defines
(absent fields are omitted), with content type `application/json`, HTTP
status the error's `code` when that code is a number and 500 otherwise,
and a `Request-Id` header exactly when the error carries an associated
context. -/
theorem c7_amended (e : JsError) :
    (errorToResponse e).status = (match e.code with | some (.num n) => n | _ => 500) ∧
    ("Content-type", "application/json") ∈ (errorToResponse e).headers ∧
    ((∃ id, ("Request-Id", id) ∈ (errorToResponse e).headers) ↔ e.ctx.isSome = true) ∧
    (errorToResponse e).body = .errJson (pickErrFields e) ∧
    (∀ f v, (f, v) ∈ pickErrFields e →
      f = "name" ∨ f = "message" ∨ f = "code" ∨ f = "data") ∧
    ("name" ∈ (pickErrFields e).map Prod.fst ↔ e.name.isSome = true) ∧
    ("message" ∈ (pickErrFields e).map Prod.fst ↔ e.message.isSome = true) ∧
    ("code" ∈ (pickErrFields e).map Prod.fst ↔ e.code.isSome = true) ∧
    ("data" ∈ (pickErrFields e).map Prod.fst ↔ e.data.isSome = true) := by
  obtain ⟨n, m, c, d, cx⟩ := e
  have hfields : ∀ f v, (f, v) ∈ pickErrFields ⟨n, m, c, d, cx⟩ →
      f = "name" ∨ f = "message" ∨ f = "code" ∨ f = "data" := by
    intro f v hm
    cases n <;> cases m <;> rcases c with _ | ⟨n1⟩ | ⟨s1⟩ <;> cases d <;>
      simp [pickErrFields] at hm <;> tauto
  refine ⟨rfl, by simp [errorToResponse], ?_, rfl, hfields, ?_, ?_, ?_, ?_⟩ <;>
    cases n <;> cases m <;>
    rcases c with _ | ⟨n1⟩ | ⟨s1⟩ <;> cases d <;> cases cx <;>
    simp [errorToResponse, pickErrFields]

/-- C7 witness: the amended mapping evaluated on the pipeline's
not-found error, which does carry all four fields. -/
theorem c7_amended_witness :
    (errorToResponse (serviceNotFoundError "a.b")).status = 404 ∧
    ("Content-type", "application/json") ∈
      (errorToResponse (serviceNotFoundError "a.b")).headers ∧
    ("data" ∈ (pickErrFields (serviceNotFoundError "a.b")).map Prod.fst ↔
      (serviceNotFoundError "a.b").data.isSome = true) :=
  ⟨(c7_amended (serviceNotFoundError "a.b")).1, (c7_amended (serviceNotFoundError "a.b")).2.1,
    (c7_amended (serviceNotFoundError "a.b")).2.2.2.2.2.2.2.2⟩

end MoleculerWeb
